import Mathlib

/-!
Verification of the OT-early-warning-system connection-orchestration and
scanning subsystem (src/listener.rs, src/scanner.rs, src/config.rs) against
its natural-language specification.

The Rust code is shallowly embedded: string parsing (`str::parse::<u16>`,
`str::split_once`), port-spec resolution, the privilege gate of the scan
engine, the per-port probe logic, the startup loop of the listener manager,
the timeout configuration, and the per-connection echo loop are translated
into executable Lean functions.  Environment interaction (socket reads and
writes, bind outcomes, effective-uid checks) is passed in explicitly as
data, so every function is a pure, computable translation of the
corresponding Rust control flow.
-/

namespace OTEWS

/-! ## String parsing primitives (model of `str::parse::<uN>` and `str::split_once`) -/

/-- Digit-accumulation loop of Rust's unsigned `FromStr`: consume decimal
digits left to right, failing on the first non-digit character or on any
intermediate value exceeding `bound` (the type's maximum, i.e. overflow). -/
def parseDigitsAux (bound : Nat) : List Char → Nat → Option Nat
  | [], acc => some acc
  | c :: rest, acc =>
      if c.isDigit then
        let v := acc * 10 + (c.toNat - 48)
        if v ≤ bound then parseDigitsAux bound rest v else none
      else none

/-- Rust's `str::parse::<uN>` on the character list of the input: an optional
leading `+`, then one or more decimal digits, with overflow checked against
`bound`.  Anything else (empty string, sign alone, stray characters,
overflow) is a parse error, `none`. -/
def parseUIntChars (bound : Nat) (cs : List Char) : Option Nat :=
  match cs with
  | [] => none
  | c :: rest =>
      if c = '+' then
        match rest with
        | [] => none
        | _ :: _ => parseDigitsAux bound rest 0
      else parseDigitsAux bound cs 0

/-- `str::parse::<u16>`. -/
def parseU16Chars (cs : List Char) : Option Nat :=
  parseUIntChars 65535 cs

/-- `str::parse::<u64>`. -/
def parseU64Chars (cs : List Char) : Option Nat :=
  parseUIntChars 18446744073709551615 cs

/-- Rust's `str::split_once(sep)`: split at the first occurrence of `sep`,
returning the parts before and after it, or `none` when `sep` is absent. -/
def splitOnceChars (sep : Char) : List Char → Option (List Char × List Char)
  | [] => none
  | c :: rest =>
      if c = sep then some ([], rest)
      else
        match splitOnceChars sep rest with
        | some (a, b) => some (c :: a, b)
        | none => none

/-- Rust's inclusive range iterator `start..=end` over unsigned integers:
the ascending list `start, start+1, …, end`, empty when `start > end`. -/
def rangeList (s e : Nat) : List Nat :=
  if s ≤ e then List.range' s (e - s + 1) else []

/-! ## Scan engine (src/scanner.rs) -/

/-- The ports probed for one entry of `app_config.scan_ports`
(scanner.rs, `scan_ports` loop body, lines 41-56): a dash-containing entry
is treated as a range whose unparseable sides default to `0`
(`parse::<u16>().unwrap_or(0)`) and every port of `start..=end` is probed;
an entry without a dash is probed as a single port unless its
parse-or-default value is `0`, in which case it is skipped. -/
def scanResolve (spec : String) : List Nat :=
  match splitOnceChars '-' spec.toList with
  | some (a, b) =>
      rangeList ((parseU16Chars a).getD 0) ((parseU16Chars b).getD 0)
  | none =>
      match parseU16Chars spec.toList with
      | some p => if p ≠ 0 then [p] else []
      | none => []

/-- The per-entry privilege test of scanner.rs lines 12-18: an entry needs
root when it parses as a single port `≤ 1024`, or — failing that — when it
splits at a dash and either side's parse-or-default-`0` value is `≤ 1024`. -/
def specNeedsRoot (spec : String) : Bool :=
  match parseU16Chars spec.toList with
  | some port => decide (port ≤ 1024)
  | none =>
      match splitOnceChars '-' spec.toList with
      | some (a, b) =>
          decide ((parseU16Chars a).getD 0 ≤ 1024) ||
            decide ((parseU16Chars b).getD 0 ≤ 1024)
      | none => false

/-- `needs_root` of scanner.rs lines 12-18: any entry needs root. -/
def needsRoot (scanPorts : List String) : Bool :=
  scanPorts.any specNeedsRoot

/-- The option flags passed to `OpenOptions` when opening a file. -/
structure OpenOpts where
  create : Bool
  writeFlag : Bool
  append : Bool
  truncFlag : Bool
  deriving DecidableEq, Repr

/-- scanner.rs lines 34-38: the scan log file is opened with
`OpenOptions::new().create(true).write(true)` — no append, no truncate. -/
def scanLogOpenOpts : OpenOpts :=
  { create := true, writeFlag := true, append := false, truncFlag := false }

/-- listener.rs lines 120-124: the peer log file is opened with
`OpenOptions::new().create(true).append(true)`. -/
def peerLogOpenOpts : OpenOpts :=
  { create := true, writeFlag := false, append := true, truncFlag := false }

/-- File-system model of opening a file (whose prior contents are `prior`,
`none` meaning the file did not exist) under `opts` and then writing the
byte sequence `out` at the resulting cursor: truncation clears existing
contents, append mode positions the cursor at the end, and otherwise the
cursor starts at offset 0 and writing overwrites in place, leaving any
existing bytes beyond the written length untouched. -/
def openAndWrite (opts : OpenOpts) (prior : Option (List Char)) (out : List Char) : List Char :=
  let existing := if opts.truncFlag then [] else prior.getD []
  if opts.append then existing ++ out
  else out ++ existing.drop out.length

/-- Result of one invocation of `scan_ports` (scanner.rs lines 3-56):
either the dormant no-op, the whole-scan privilege abort (one error log
entry, nothing probed), or a completed scan that opened the scan log file
with the recorded options and probed the recorded ports in order. -/
inductive ScanResult where
  | disabled
  | privilegeError
  | scanned (opts : OpenOpts) (probed : List Nat)
  deriving DecidableEq, Repr

/-- `scan_ports` of scanner.rs lines 3-56, with the environment-dependent
inputs made explicit: `active` is `app_config.active`, `isRoot` the result
of `check_root_privileges` (`geteuid().is_root()`), and `scanPorts` the
configured `scan_ports` entries.  Dormant configurations return at once;
a needed-but-absent privilege aborts the entire scan before the log file is
opened and before any port is probed; otherwise the scan log is opened and
every entry's resolved ports are probed sequentially, in order. -/
def scan_ports (active isRoot : Bool) (scanPorts : List String) : ScanResult :=
  if !active then ScanResult.disabled
  else if needsRoot scanPorts && !isRoot then ScanResult.privilegeError
  else ScanResult.scanned scanLogOpenOpts ((scanPorts.map scanResolve).flatten)

/-- The ports actually probed by a scan outcome. -/
def probedPorts : ScanResult → List Nat
  | ScanResult.scanned _ ps => ps
  | ScanResult.disabled => []
  | ScanResult.privilegeError => []

/-- Number of privilege-error log entries a scan outcome produces: the
abort branch of scanner.rs lines 21-24 logs exactly once. -/
def privErrorCount : ScanResult → Nat
  | ScanResult.privilegeError => 1
  | ScanResult.disabled => 0
  | ScanResult.scanned _ _ => 0

/-! ### Per-port probe (src/scanner.rs `scan_single_port`, lines 64-97) -/

/-- Outcome of the bounded banner read `timeout(5s, stream.read(&mut buffer))`
performed after a successful connect: `gotData bs` is `Ok(Ok(n))` with
`bs` the `n` bytes read (`n = 0` is a fruitless immediate EOF),
`readFailed` is `Ok(Err(_))`, `timedOut` is the elapsed timeout. -/
inductive ReadOutcome where
  | gotData (bytes : List Nat)
  | readFailed (e : Nat)
  | timedOut
  deriving DecidableEq, Repr

/-- Outcome of `TcpStream::connect` for one probed port, together with the
subsequent banner read when the connect succeeded. -/
inductive ConnectOutcome where
  | success (r : ReadOutcome)
  | failure (e : Nat)
  deriving DecidableEq, Repr

/-- One line of the per-target scan log `logs/<ip>-scan.log`.  The data
payload is kept as the raw bytes; scanner.rs renders it with the lossy
UTF-8 decoding `String::from_utf8_lossy` before writing. -/
inductive ScanLogEntry where
  | portOpen (port : Nat)
  | dataReceived (port : Nat) (bytes : List Nat)
  | noImmediateData (port : Nat)
  | connectFailed (port : Nat) (e : Nat)
  deriving DecidableEq, Repr

/-- `scan_single_port` of scanner.rs lines 64-97: a failed connect logs the
failure and nothing else; a successful connect logs "port open" and then
exactly one of a data entry (when the bounded read returned `n > 0` bytes)
or a "no immediate data" entry (zero-byte read, read error, or timeout). -/
def scan_single_port (port : Nat) (oc : ConnectOutcome) : List ScanLogEntry :=
  match oc with
  | ConnectOutcome.failure e => [ScanLogEntry.connectFailed port e]
  | ConnectOutcome.success r =>
      ScanLogEntry.portOpen port ::
        (match r with
         | ReadOutcome.gotData bs =>
             if 0 < bs.length then [ScanLogEntry.dataReceived port bs]
             else [ScanLogEntry.noImmediateData port]
         | _ => [ScanLogEntry.noImmediateData port])

/-- The scan-log lines written by probing `ports` sequentially, where
`env port` is the connect-and-read outcome the network offers at `port`
(scanner.rs lines 41-56: the loop always proceeds to the next port). -/
def runScan (env : Nat → ConnectOutcome) (ports : List Nat) : List ScanLogEntry :=
  (ports.map (fun p => scan_single_port p (env p))).flatten

/-- Recognizer for "port open" scan-log entries. -/
def isOpenEntry : ScanLogEntry → Bool
  | ScanLogEntry.portOpen _ => true
  | _ => false

/-- Recognizer for data-received scan-log entries. -/
def isDataEntry : ScanLogEntry → Bool
  | ScanLogEntry.dataReceived _ _ => true
  | _ => false

/-- Recognizer for "no immediate data" scan-log entries. -/
def isNoDataEntry : ScanLogEntry → Bool
  | ScanLogEntry.noImmediateData _ => true
  | _ => false

/-- Recognizer for connect-failure scan-log entries. -/
def isFailEntry : ScanLogEntry → Bool
  | ScanLogEntry.connectFailed _ _ => true
  | _ => false

/-! ## Listener manager startup (src/listener.rs `start_listeners`, lines 21-73) -/

/-- How `start_listeners` treats one entry of the configured listening
ports (listener.rs lines 28-66): a successful `parse::<u16>` gives a
single port; otherwise a dash-containing entry has both sides parsed with
`.expect(...)`, so a side that is not a `u16` panics the (main) task; a
dash-free unparseable entry is logged as `Invalid port specification` and
skipped. -/
inductive SpecOutcome where
  | single (port : Nat)
  | rangeSpec (s e : Nat)
  | malformed
  | panicked
  deriving DecidableEq, Repr

/-- Classification of one listening-port entry per listener.rs lines 28-66. -/
def listenerSpecOutcome (spec : String) : SpecOutcome :=
  match parseU16Chars spec.toList with
  | some p => SpecOutcome.single p
  | none =>
      match splitOnceChars '-' spec.toList with
      | some (a, b) =>
          match parseU16Chars a, parseU16Chars b with
          | some s, some e => SpecOutcome.rangeSpec s e
          | _, _ => SpecOutcome.panicked
      | none => SpecOutcome.malformed

/-- Console log events emitted by `start_listeners` on its own task. -/
inductive StartEvent where
  | listening (port : Nat)
  | bindFailed (port : Nat)
  | invalidSpec (spec : String)
  deriving DecidableEq, Repr

/-- State of the listener startup after `start_listeners` has processed the
configured entries: the log events in order, whether the main task panicked
(aborting the processing of every remaining entry), and the ports whose
bind succeeded and whose accept loop was therefore spawned, in bind order. -/
structure Startup where
  events : List StartEvent
  aborted : Bool
  bound : List Nat
  deriving DecidableEq, Repr

/-- Binding one concrete port (listener.rs lines 29-39 and 46-61): success
logs `Listening on port` and spawns an accept loop; failure logs an error
and the loop moves on — `bindOk` is the environment's verdict per port. -/
def bindAll (bindOk : Nat → Bool) (ps : List Nat) : List StartEvent × List Nat :=
  (ps.map (fun p => if bindOk p then StartEvent.listening p else StartEvent.bindFailed p),
   ps.filter bindOk)

/-- `start_listeners` of listener.rs lines 21-73 over the configured port
entries, processed in order.  A `panicked` entry stops everything: the
`.expect(...)` unwinds the main task before any port of that entry is
bound and before any later entry is examined. -/
def start_listeners (bindOk : Nat → Bool) : List String → Startup
  | [] => { events := [], aborted := false, bound := [] }
  | spec :: rest =>
      match listenerSpecOutcome spec with
      | SpecOutcome.panicked => { events := [], aborted := true, bound := [] }
      | SpecOutcome.malformed =>
          let S := start_listeners bindOk rest
          { events := StartEvent.invalidSpec spec :: S.events,
            aborted := S.aborted, bound := S.bound }
      | SpecOutcome.single p =>
          let S := start_listeners bindOk rest
          let eb := bindAll bindOk [p]
          { events := eb.1 ++ S.events, aborted := S.aborted, bound := eb.2 ++ S.bound }
      | SpecOutcome.rangeSpec s e =>
          let S := start_listeners bindOk rest
          let eb := bindAll bindOk (rangeList s e)
          { events := eb.1 ++ S.events, aborted := S.aborted, bound := eb.2 ++ S.bound }

/-! ## Timeout configuration (src/config.rs `get_connection_timeout`, lines 34-44) -/

/-- `get_connection_timeout` of config.rs lines 34-44 as a function of the
`CONNECTION_TIMEOUT_SECS` environment variable (`none` = unset): the unset
variable defaults to the string `"30"`, and the value is parsed with
`parse::<u64>().expect(...)` — a failed parse panics, modelled as `none`
in the result; a successful parse yields that many seconds. -/
def get_connection_timeout (env : Option String) : Option Nat :=
  parseU64Chars ((env.getD "30").toList)

/-- `handle_connections` (listener.rs lines 76-103) runs once per *bound*
port, inside the task spawned after that port's bind succeeded, and its
first step (line 81) evaluates `get_connection_timeout`.  This pairs each
bound port with that evaluation's result (`none` = the handler task
panicked at startup; the process and the other listeners continue). -/
def handlerStarts (tenv : Option String) (S : Startup) : List (Nat × Option Nat) :=
  S.bound.map (fun p => (p, get_connection_timeout tenv))

/-! ## Connection handler (src/listener.rs `process_connection`, lines 106-175) -/

/-- Outcome of one `write(buf)` call made by `write_all` on the socket:
`wrote k` wrote `k` of the requested bytes, `err e` failed with I/O error
`e`. -/
inductive WriteRes where
  | wrote (k : Nat)
  | err (e : Nat)
  deriving DecidableEq, Repr

/-- Model of `AsyncWriteExt::write_all` (used at listener.rs line 160):
repeatedly call `write` until `n` bytes are written; a call that writes
zero bytes while data remains is the definite `WriteZero` error (coded 0),
a failing call propagates its error — a short write can therefore never be
silently dropped.  On success the total written, which the caller relies
on being `n`, is returned. -/
def writeAll : List WriteRes → Nat → Except Nat Nat
  | _, 0 => Except.ok 0
  | [], _ + 1 => Except.error 0
  | WriteRes.err e :: _, _ + 1 => Except.error e
  | WriteRes.wrote k :: env, n + 1 =>
      if k = 0 then Except.error 0
      else
        match writeAll env (n + 1 - min k (n + 1)) with
        | Except.ok m => Except.ok (min k (n + 1) + m)
        | Except.error e => Except.error e

/-- One iteration's socket input in the echo loop of listener.rs lines
140-174, i.e. the outcome of `timeout(timeout_duration, socket.read(&mut buf))`:
`closed` is `Ok(Ok(0))` (clean peer close), `data bs wenv` is `Ok(Ok(n))`
with the `n > 0` bytes `bs` read and `wenv` the socket's subsequent
behavior for the echoing `write_all`, `ioFail e` is `Ok(Err(e))`, and
`timedOut` is `Err(_)` (the inactivity timeout elapsed). -/
inductive ReadStep where
  | closed
  | data (bytes : List Nat) (wenv : List WriteRes)
  | ioFail (e : Nat)
  | timedOut
  deriving DecidableEq, Repr

/-- One line of the per-peer log `logs/<peer-ip>.log` (timestamps elided). -/
inductive ConnLogEntry where
  | connOpened (peer : Nat)
  | connClosed
  | received (bytes : List Nat)
  | inactivityTimeout
  deriving DecidableEq, Repr

/-- Result of `process_connection`: `ok` is `Ok(())`, `ioError e` is
`Err(e)`, and `pending` means the supplied trace ended while the loop was
still awaiting the next read (the connection is still live). -/
inductive EchoOutcome where
  | ok
  | ioError (e : Nat)
  | pending
  deriving DecidableEq, Repr

/-- The echo loop of listener.rs lines 140-174, consuming the socket's
read outcomes in order.  It returns the per-peer log lines written, the
bytes successfully echoed back, and the loop's result: a clean close or an
inactivity timeout is logged and returns `Ok(())`; `n > 0` bytes are
logged first and then echoed with `write_all`, whose failure (like a read
error) returns `Err` immediately, processing nothing further. -/
def echoLoop : List ReadStep → List ConnLogEntry × List Nat × EchoOutcome
  | [] => ([], [], EchoOutcome.pending)
  | ReadStep.closed :: _ => ([ConnLogEntry.connClosed], [], EchoOutcome.ok)
  | ReadStep.timedOut :: _ => ([ConnLogEntry.inactivityTimeout], [], EchoOutcome.ok)
  | ReadStep.ioFail e :: _ => ([], [], EchoOutcome.ioError e)
  | ReadStep.data bs wenv :: rest =>
      match writeAll wenv bs.length with
      | Except.error e => ([ConnLogEntry.received bs], [], EchoOutcome.ioError e)
      | Except.ok m =>
          let r := echoLoop rest
          (ConnLogEntry.received bs :: r.1, bs.take m ++ r.2.1, r.2.2)

/-- Observable effects of one `process_connection` call. -/
structure ConnEffects where
  dirCreated : Bool
  fileOpened : Bool
  log : List ConnLogEntry
  echoed : List Nat
  scanStarted : Bool
  deriving DecidableEq, Repr

/-- `process_connection` of listener.rs lines 106-175: when the peer
address is unavailable (`peer = none`) it returns `Ok(())` at line 113,
before the log directory is created, before the peer log file is opened,
before the scan spawn is considered, and before anything touches the
socket.  Otherwise it creates `logs/`, opens the peer's log file, records
the connection, spawns `scan_ports` when `active` is set, and runs the
echo loop. -/
def process_connection (peer : Option Nat) (active : Bool) (trace : List ReadStep) :
    ConnEffects × EchoOutcome :=
  match peer with
  | none =>
      ({ dirCreated := false, fileOpened := false, log := [], echoed := [],
         scanStarted := false }, EchoOutcome.ok)
  | some p =>
      let r := echoLoop trace
      ({ dirCreated := true, fileOpened := true,
         log := ConnLogEntry.connOpened p :: r.1, echoed := r.2.1,
         scanStarted := active }, r.2.2)

/-! ## Spec-side views of the echo loop used to state the claims -/

/-- The chunks of bytes the peer got read from the socket before the first
non-data event (the data actually sent into the echo loop). -/
def chunksOf : List ReadStep → List (List Nat)
  | ReadStep.data bs _ :: rest => bs :: chunksOf rest
  | [] => []
  | ReadStep.closed :: _ => []
  | ReadStep.ioFail _ :: _ => []
  | ReadStep.timedOut :: _ => []

/-- The raw byte chunks recorded in a per-peer log, in order. -/
def receivedChunks (log : List ConnLogEntry) : List (List Nat) :=
  log.filterMap (fun e =>
    match e with
    | ConnLogEntry.received bs => some bs
    | _ => none)

/-- `true` when an echo-loop outcome is not an I/O error. -/
def noIoError : EchoOutcome → Bool
  | EchoOutcome.ioError _ => false
  | _ => true

/-- `true` when the echo loop survives this read event and iterates again:
only a data read whose echoing `write_all` succeeds. -/
def stepContinues : ReadStep → Bool
  | ReadStep.data bs wenv =>
      (match writeAll wenv bs.length with
       | Except.ok _ => true
       | Except.error _ => false)
  | ReadStep.closed => false
  | ReadStep.ioFail _ => false
  | ReadStep.timedOut => false

/-- The first event of the trace at which the echo loop stops, if any. -/
def firstStop : List ReadStep → Option ReadStep
  | [] => none
  | s :: rest => if stepContinues s then firstStop rest else some s

/-! ## Helper lemmas -/

/-- `split_once` finds nothing exactly when the separator is absent. -/
theorem splitOnceChars_eq_none_iff (sep : Char) (cs : List Char) :
    splitOnceChars sep cs = none ↔ sep ∉ cs := by
  induction cs with
  | nil => simp [splitOnceChars]
  | cons c rest ih =>
      rw [splitOnceChars]
      by_cases hc : c = sep
      · subst hc
        simp
      · rw [if_neg hc]
        cases hrec : splitOnceChars sep rest with
        | none =>
            have h2 : sep ∉ rest := ih.mp hrec
            simp only [List.mem_cons, not_or]
            constructor
            · intro _
              exact ⟨fun h => hc h.symm, h2⟩
            · intro _
              trivial
        | some ab =>
            obtain ⟨a, b⟩ := ab
            simp only [List.mem_cons, not_or]
            constructor
            · intro h
              cases h
            · rintro ⟨h1, h2⟩
              rw [ih.mpr h2] at hrec
              cases hrec

/-- Every character consumed by the digit loop is a decimal digit. -/
theorem parseDigitsAux_digits (bound : Nat) (cs : List Char) (acc v : Nat)
    (h : parseDigitsAux bound cs acc = some v) : ∀ c ∈ cs, c.isDigit = true := by
  induction cs generalizing acc with
  | nil => intro c hc; cases hc
  | cons c rest ih =>
      intro d hd
      rw [parseDigitsAux] at h
      by_cases hdig : c.isDigit
      · rw [if_pos hdig] at h
        by_cases hb : acc * 10 + (c.toNat - 48) ≤ bound
        · rw [if_pos hb] at h
          rcases List.mem_cons.mp hd with rfl | hmem
          · exact hdig
          · exact ih _ h d hmem
        · rw [if_neg hb] at h; cases h
      · rw [if_neg hdig] at h; cases h

/-- A string that parses as an unsigned integer contains no dash, so
`split_once('-')` fails on it. -/
theorem parseUIntChars_no_dash (bound : Nat) (cs : List Char) (v : Nat)
    (h : parseUIntChars bound cs = some v) : splitOnceChars '-' cs = none := by
  rw [splitOnceChars_eq_none_iff]
  intro hmem
  cases cs with
  | nil => cases h
  | cons c rest =>
      simp only [parseUIntChars] at h
      by_cases hp : c = '+'
      · rw [if_pos hp] at h
        cases rest with
        | nil => cases h
        | cons c2 r2 =>
            rcases List.mem_cons.mp hmem with hc | hmem2
            · rw [hp] at hc; cases hc
            · have := parseDigitsAux_digits bound _ _ _ h '-' hmem2
              simp [Char.isDigit] at this
      · rw [if_neg hp] at h
        have := parseDigitsAux_digits bound _ _ _ h '-' hmem
        simp [Char.isDigit] at this

/-- Membership in the model of Rust's `start..=end`. -/
theorem mem_rangeList (s e x : Nat) : x ∈ rangeList s e ↔ s ≤ x ∧ x ≤ e := by
  rw [rangeList]
  by_cases h : s ≤ e
  · rw [if_pos h, List.mem_range'_1]
    omega
  · rw [if_neg h]
    simp only [List.not_mem_nil, false_iff]
    omega

/-- `write_all` never under-reports: a successful return means every one
of the `n` requested bytes was written. -/
theorem writeAll_ok_total (env : List WriteRes) (n m : Nat)
    (h : writeAll env n = Except.ok m) : m = n := by
  induction env generalizing n m with
  | nil =>
      cases n with
      | zero =>
          rw [writeAll] at h
          injection h with h2
          omega
      | succ k =>
          rw [writeAll] at h
          cases h
  | cons w env ih =>
      cases n with
      | zero =>
          rw [writeAll] at h
          injection h with h2
          omega
      | succ k =>
          cases w with
          | err e =>
              rw [writeAll] at h
              cases h
          | wrote j =>
              rw [writeAll] at h
              by_cases hj : j = 0
              · rw [if_pos hj] at h; cases h
              · rw [if_neg hj] at h
                cases hrec : writeAll env (k + 1 - min j (k + 1)) with
                | error e => rw [hrec] at h; cases h
                | ok m2 =>
                    rw [hrec] at h
                    injection h with h2
                    have := ih _ _ hrec
                    omega

/-- A read event the loop does not survive makes the tail irrelevant:
the loop returns at that event. -/
theorem echoLoop_head_stop (s : ReadStep) (rest : List ReadStep)
    (hs : stepContinues s = false) : echoLoop (s :: rest) = echoLoop [s] := by
  cases s with
  | closed => rfl
  | timedOut => rfl
  | ioFail e => rfl
  | data bs wenv =>
      rw [stepContinues] at hs
      cases hw : writeAll wenv bs.length with
      | ok m => rw [hw] at hs; cases hs
      | error e => simp [echoLoop, hw]

/-- Splitting the echo loop at a prefix of survived data events: the log,
the echoed bytes and the outcome decompose along the prefix. -/
theorem echoLoop_append (pre suf : List ReadStep)
    (h : ∀ s ∈ pre, stepContinues s = true) :
    echoLoop (pre ++ suf) =
      ((chunksOf pre).map ConnLogEntry.received ++ (echoLoop suf).1,
       (chunksOf pre).flatten ++ (echoLoop suf).2.1,
       (echoLoop suf).2.2) := by
  induction pre with
  | nil => simp [chunksOf]
  | cons s pre ih =>
      have hs : stepContinues s = true := h s (List.mem_cons_self s pre)
      have hpre : ∀ x ∈ pre, stepContinues x = true :=
        fun x hx => h x (List.mem_cons_of_mem s hx)
      cases s with
      | closed => rw [stepContinues] at hs; cases hs
      | timedOut => rw [stepContinues] at hs; cases hs
      | ioFail e => rw [stepContinues] at hs; cases hs
      | data bs wenv =>
          rw [stepContinues] at hs
          cases hw : writeAll wenv bs.length with
          | error e => rw [hw] at hs; cases hs
          | ok m =>
              have hm : m = bs.length := writeAll_ok_total _ _ _ hw
              simp only [List.cons_append, echoLoop, hw, chunksOf,
                List.map_cons, List.flatten_cons, List.append_eq]
              rw [hm, List.take_length, ih hpre]
              simp

/-- The echo loop returns `Ok(())` exactly when the first non-survived
event is a clean close or an inactivity timeout. -/
theorem echoLoop_ok_iff (tr : List ReadStep) :
    (echoLoop tr).2.2 = EchoOutcome.ok ↔
      (firstStop tr = some ReadStep.closed ∨ firstStop tr = some ReadStep.timedOut) := by
  induction tr with
  | nil => simp [echoLoop, firstStop]
  | cons s rest ih =>
      cases hc : stepContinues s with
      | true =>
          cases s with
          | closed => rw [stepContinues] at hc; cases hc
          | timedOut => rw [stepContinues] at hc; cases hc
          | ioFail e => rw [stepContinues] at hc; cases hc
          | data bs wenv =>
              rw [stepContinues] at hc
              cases hw : writeAll wenv bs.length with
              | error e => rw [hw] at hc; cases hc
              | ok m =>
                  rw [firstStop]
                  have : stepContinues (ReadStep.data bs wenv) = true := by
                    rw [stepContinues, hw]
                  rw [if_pos this]
                  simp only [echoLoop, hw]
                  exact ih
      | false =>
          rw [firstStop, if_neg (by rw [hc]; exact Bool.false_ne_true)]
          cases s with
          | closed => simp [echoLoop]
          | timedOut => simp [echoLoop]
          | ioFail e => simp [echoLoop]
          | data bs wenv =>
              rw [stepContinues] at hc
              cases hw : writeAll wenv bs.length with
              | ok m => rw [hw] at hc; cases hc
              | error e => simp [echoLoop, hw]

/-- The echo loop returns the I/O error `e` exactly when the first
non-survived event is a failed read with error `e` or a data read whose
echoing `write_all` failed with `e`. -/
theorem echoLoop_error_iff (tr : List ReadStep) (e : Nat) :
    (echoLoop tr).2.2 = EchoOutcome.ioError e ↔
      (firstStop tr = some (ReadStep.ioFail e) ∨
       ∃ bs wenv, firstStop tr = some (ReadStep.data bs wenv) ∧
         writeAll wenv bs.length = Except.error e) := by
  induction tr with
  | nil => simp [echoLoop, firstStop]
  | cons s rest ih =>
      cases hc : stepContinues s with
      | true =>
          cases s with
          | closed => rw [stepContinues] at hc; cases hc
          | timedOut => rw [stepContinues] at hc; cases hc
          | ioFail e2 => rw [stepContinues] at hc; cases hc
          | data bs wenv =>
              rw [stepContinues] at hc
              cases hw : writeAll wenv bs.length with
              | error e2 => rw [hw] at hc; cases hc
              | ok m =>
                  rw [firstStop]
                  have hcont : stepContinues (ReadStep.data bs wenv) = true := by
                    rw [stepContinues, hw]
                  rw [if_pos hcont]
                  simp only [echoLoop, hw]
                  exact ih
      | false =>
          rw [firstStop, if_neg (by rw [hc]; exact Bool.false_ne_true)]
          cases s with
          | closed => simp [echoLoop]
          | timedOut => simp [echoLoop]
          | ioFail e2 => simp [echoLoop]
          | data bs wenv =>
              rw [stepContinues] at hc
              cases hw : writeAll wenv bs.length with
              | ok m => rw [hw] at hc; cases hc
              | error e2 =>
                  simp only [echoLoop, hw]
                  constructor
                  · intro h
                    injection h with h2
                    subst h2
                    exact Or.inr ⟨bs, wenv, rfl, hw⟩
                  · intro h
                    rcases h with h | ⟨bs2, wenv2, heq, hw2⟩
                    · cases h
                    · injection heq with h3
                      injection h3 with h4 h5
                      subst h4
                      subst h5
                      rw [hw2] at hw
                      injection hw with h6
                      rw [h6]

/-- A string that parses as a `u16` contains no dash. -/
theorem parseU16Chars_no_dash (cs : List Char) (v : Nat)
    (h : parseU16Chars cs = some v) : splitOnceChars '-' cs = none :=
  parseUIntChars_no_dash 65535 cs v h

/-! ## Claim theorems -/

/-- Claim C7: port-spec resolution maps a single in-range integer spec to
the one-element sequence of that port and a range spec `a-b` to the
inclusive ascending sequence `a..=b`; `"8000-8002"` yields exactly
`[8000, 8001, 8002]` in ascending order, `"80"` yields `[80]`, and an
inverted range yields the empty sequence as a legitimate non-error result —
in both the scanner's and the listener's embedding of the parser. -/
theorem C7_port_spec_resolution :
    scanResolve "80" = [80] ∧
    scanResolve "8000-8002" = [8000, 8001, 8002] ∧
    scanResolve "9-5" = [] ∧
    listenerSpecOutcome "80" = SpecOutcome.single 80 ∧
    listenerSpecOutcome "8000-8002" = SpecOutcome.rangeSpec 8000 8002 ∧
    (∀ s e x, x ∈ rangeList s e ↔ (s ≤ x ∧ x ≤ e)) ∧
    (∀ s e, List.Sorted (· < ·) (rangeList s e)) ∧
    (∀ s e, e < s → rangeList s e = []) := by
  refine ⟨by decide, by decide, by decide, by decide, by decide, mem_rangeList, ?_, ?_⟩
  · intro s e
    rw [rangeList]
    by_cases h : s ≤ e
    · rw [if_pos h]
      exact List.pairwise_lt_range' s (e - s + 1)
    · rw [if_neg h]
      exact List.sorted_nil
  · intro s e h
    rw [rangeList, if_neg (by omega)]

/-- Concrete instance of the C7 theorem: the membership characterization at
`8000..=8002` and the inverted range `9-5` resolving to the empty list. -/
theorem C7_port_spec_resolution_witness :
    ((8001 : Nat) ∈ rangeList 8000 8002 ↔ (8000 ≤ 8001 ∧ 8001 ≤ 8002)) ∧
    rangeList 9 5 = [] :=
  ⟨C7_port_spec_resolution.2.2.2.2.2.1 8000 8002 8001,
   C7_port_spec_resolution.2.2.2.2.2.2.2 9 5 (by decide)⟩

/-- Claim C3 as stated is false: the engine does not require privilege
"exactly when" some spec resolves to, or overlaps, a port ≤ 1024.  The
spec `"2000-abc"` resolves to no ports at all and mentions no port ≤ 1024
(its only parseable endpoint is 2000), yet `needs_root` holds — the
unparseable side defaults to 0 — and without root the whole scan aborts. -/
theorem C3_counterexample :
    needsRoot ["2000-abc"] = true ∧
    scanResolve "2000-abc" = [] ∧
    scan_ports true false ["2000-abc"] = ScanResult.privilegeError := by
  refine ⟨by decide, by decide, by decide⟩

/-- Claim C3 amended: privilege is required whenever some scan-port spec
resolves to a port ≤ 1024 (but also for some specs resolving to nothing,
per the counterexample); when required and the process lacks root, the
entire scan is aborted with zero ports probed and exactly one
privilege-error log entry. -/
theorem C3_amended_privilege_gate (ports : List String) (spec : String) (port : Nat)
    (h1 : spec ∈ ports) (h2 : port ∈ scanResolve spec) (h3 : port ≤ 1024) :
    needsRoot ports = true ∧
    scan_ports true false ports = ScanResult.privilegeError ∧
    probedPorts (scan_ports true false ports) = [] ∧
    privErrorCount (scan_ports true false ports) = 1 := by
  have hspec : specNeedsRoot spec = true := by
    cases hsplit : splitOnceChars '-' spec.toList with
    | some ab =>
        obtain ⟨a, b⟩ := ab
        have hparse : parseU16Chars spec.toList = none := by
          cases hp : parseU16Chars spec.toList with
          | none => rfl
          | some v =>
              rw [parseU16Chars_no_dash _ _ hp] at hsplit
              cases hsplit
        simp only [scanResolve, hsplit, hparse] at h2
        have hmem := (mem_rangeList _ _ port).mp h2
        have hle : (parseU16Chars a).getD 0 ≤ 1024 := le_trans hmem.1 h3
        simp only [specNeedsRoot, hparse, hsplit]
        rw [decide_eq_true hle]
        rfl
    | none =>
        cases hp : parseU16Chars spec.toList with
        | none =>
            simp only [scanResolve, hsplit, hp] at h2
            cases h2
        | some v =>
            simp only [scanResolve, hsplit, hp] at h2
            by_cases hv : v = 0
            · simp [hv] at h2
            · simp [hv] at h2
              simp only [specNeedsRoot, hp]
              exact decide_eq_true (h2 ▸ h3)
  have hroot : needsRoot ports = true :=
    List.any_eq_true.mpr ⟨spec, h1, hspec⟩
  have habort : scan_ports true false ports = ScanResult.privilegeError := by
    simp [scan_ports, hroot]
  exact ⟨hroot, habort, by rw [habort]; rfl, by rw [habort]; rfl⟩

/-- Concrete instance of the amended C3 theorem at the configuration
`["80"]`, which resolves to the privileged port 80. -/
theorem C3_amended_privilege_gate_witness :
    ("80" ∈ (["80"] : List String)) ∧ (80 ∈ scanResolve "80") ∧ 80 ≤ 1024 ∧
    scan_ports true false ["80"] = ScanResult.privilegeError :=
  ⟨by simp, by decide, by decide,
   (C3_amended_privilege_gate ["80"] "80" 80 (by simp) (by decide) (by decide)).2.1⟩

/-- Claim C6 as stated is false: port 0 is probed.  The malformed range
entry `"abc-def"` has both sides defaulted to 0 by `unwrap_or(0)`, the
range `0..=0` is iterated, and port 0 is probed for it — the entry is not
skipped. -/
theorem C6_counterexample :
    scanResolve "abc-def" = [0] ∧
    scan_ports true true ["abc-def"] = ScanResult.scanned scanLogOpenOpts [0] ∧
    0 ∈ probedPorts (scan_ports true true ["abc-def"]) := by
  refine ⟨by decide, by decide, by decide⟩

/-- Claim C6 amended: a dash-free scan-port entry that is malformed or
zero-valued is skipped — no port is probed for it — and is never fatal to
the scan of the remaining entries; dash-containing entries, however,
default unparseable sides to 0 and probe every port of the resulting
inclusive range, so port 0 is probed whenever that range contains it
(for example `"abc-def"` probes exactly port 0). -/
theorem C6_amended_single_zero_skipped (spec : String) (rest : List String)
    (h1 : splitOnceChars '-' spec.toList = none)
    (h2 : (parseU16Chars spec.toList).getD 0 = 0) :
    scanResolve spec = [] ∧
    scan_ports true true (spec :: rest) = scan_ports true true rest ∧
    scanResolve "abc-def" = [0] := by
  have hres : scanResolve spec = [] := by
    cases hp : parseU16Chars spec.toList with
    | none => simp only [scanResolve, h1, hp]
    | some v =>
        rw [hp] at h2
        simp only [Option.getD_some] at h2
        subst h2
        simp only [scanResolve, h1, hp]
        simp
  refine ⟨hres, ?_, by decide⟩
  simp [scan_ports, hres]

/-- Concrete instance of the amended C6 theorem: the zero-valued entry
`"0"` is skipped and the sibling entry `"8080"` is still scanned. -/
theorem C6_amended_single_zero_skipped_witness :
    splitOnceChars '-' "0".toList = none ∧
    (parseU16Chars "0".toList).getD 0 = 0 ∧
    scan_ports true true ["0", "8080"] = scan_ports true true ["8080"] :=
  ⟨by decide, by decide,
   (C6_amended_single_zero_skipped "0" ["8080"] (by decide) (by decide)).2.1⟩

/-- Claim C5: for every probed port, a successful connect produces exactly
one "port open" entry first, followed by exactly one of a data-received
entry (when the bounded read returned data) or a "no immediate data" entry
— never both, never neither, and no failure entry; a failed connect
produces exactly the one connect-failure entry; and the scan proceeds to
the next port regardless of the outcome, with no retry. -/
theorem C5_per_port_probe (port : Nat) (oc : ConnectOutcome)
    (env : Nat → ConnectOutcome) (rest : List Nat) :
    (∀ r, oc = ConnectOutcome.success r →
      (scan_single_port port oc).countP isOpenEntry = 1 ∧
      (scan_single_port port oc).countP isDataEntry +
        (scan_single_port port oc).countP isNoDataEntry = 1 ∧
      (scan_single_port port oc).countP isFailEntry = 0 ∧
      (scan_single_port port oc).head? = some (ScanLogEntry.portOpen port) ∧
      (∀ bs, r = ReadOutcome.gotData bs → 0 < bs.length →
        scan_single_port port oc =
          [ScanLogEntry.portOpen port, ScanLogEntry.dataReceived port bs])) ∧
    (∀ e, oc = ConnectOutcome.failure e →
      scan_single_port port oc = [ScanLogEntry.connectFailed port e]) ∧
    runScan env (port :: rest) = scan_single_port port (env port) ++ runScan env rest := by
  refine ⟨?_, ?_, by simp [runScan]⟩
  · rintro r rfl
    cases r with
    | gotData bs =>
        by_cases hlen : 0 < bs.length
        · refine ⟨?_, ?_, ?_, ?_, ?_⟩ <;>
            simp [scan_single_port, hlen, List.countP_cons,
              isOpenEntry, isDataEntry, isNoDataEntry, isFailEntry]
        · refine ⟨?_, ?_, ?_, ?_, ?_⟩
          · simp [scan_single_port, hlen, List.countP_cons,
              isOpenEntry, isDataEntry, isNoDataEntry, isFailEntry]
          · simp [scan_single_port, hlen, List.countP_cons,
              isOpenEntry, isDataEntry, isNoDataEntry, isFailEntry]
          · simp [scan_single_port, hlen, List.countP_cons,
              isOpenEntry, isDataEntry, isNoDataEntry, isFailEntry]
          · simp [scan_single_port, hlen]
          · rintro bs2 heq hlen2
            injection heq with h3
            subst h3
            exact absurd hlen2 hlen
    | readFailed e =>
        refine ⟨?_, ?_, ?_, ?_, ?_⟩ <;>
          simp [scan_single_port, List.countP_cons,
            isOpenEntry, isDataEntry, isNoDataEntry, isFailEntry]
    | timedOut =>
        refine ⟨?_, ?_, ?_, ?_, ?_⟩ <;>
          simp [scan_single_port, List.countP_cons,
            isOpenEntry, isDataEntry, isNoDataEntry, isFailEntry]
  · rintro e rfl
    rfl

/-- Concrete instance of the C5 theorem: a successful connect with banner
data `[65]` on port 80, and a failed connect with error 3. -/
theorem C5_per_port_probe_witness :
    (scan_single_port 80 (ConnectOutcome.success (ReadOutcome.gotData [65]))).countP
      isOpenEntry = 1 ∧
    scan_single_port 80 (ConnectOutcome.failure 3) = [ScanLogEntry.connectFailed 80 3] :=
  ⟨((C5_per_port_probe 80 (ConnectOutcome.success (ReadOutcome.gotData [65]))
      (fun _ => ConnectOutcome.failure 0) []).1 (ReadOutcome.gotData [65]) rfl).1,
   (C5_per_port_probe 80 (ConnectOutcome.failure 3)
      (fun _ => ConnectOutcome.failure 0) []).2.1 3 rfl⟩

/-- Claim C8: the scan log is NOT opened with truncate semantics.  The
open of scanner.rs lines 34-38 sets create and write but not truncate, so
writing a new scan's outcomes overwrites the file in place from offset 0
and prior contents beyond the written length survive: prior contents
`"AAAAA"` overwritten by `"BB"` leave `"BBAAA"`, not `"BB"`. -/
theorem C8_no_truncate_evaluation :
    scan_ports true true ["8080"] = ScanResult.scanned scanLogOpenOpts [8080] ∧
    scanLogOpenOpts.truncFlag = false ∧
    openAndWrite scanLogOpenOpts (some ['A', 'A', 'A', 'A', 'A']) ['B', 'B'] =
      ['B', 'B', 'A', 'A', 'A'] ∧
    (['B', 'B', 'A', 'A', 'A'] : List Char) ≠ ['B', 'B'] := by
  refine ⟨by decide, rfl, by decide, by decide⟩

/-- Claim C2 as stated is false: the spec `"abc-def"` parses neither as a
single integer nor as two integers separated by one dash, yet it is not
logged-and-skipped — the `.expect(...)` on the range sides panics,
aborting startup: no `Invalid port specification` event is logged, and the
sibling spec `"8080"` is never resolved or bound. -/
theorem C2_counterexample :
    listenerSpecOutcome "abc-def" = SpecOutcome.panicked ∧
    start_listeners (fun _ => true) ["abc-def", "8080"] =
      { events := [], aborted := true, bound := [] } := by
  refine ⟨by decide, by decide⟩

/-- Claim C2 amended: a spec that parses as no single integer and contains
no dash is logged as an error and skipped, with the sibling specs resolved,
bound and reported exactly as they would be without it; a dash-containing
spec whose sides are not both integers, however, panics the startup and
aborts every remaining sibling. -/
theorem C2_amended_dashfree_isolated (spec : String) (rest : List String)
    (bindOk : Nat → Bool)
    (h1 : parseU16Chars spec.toList = none)
    (h2 : splitOnceChars '-' spec.toList = none) :
    listenerSpecOutcome spec = SpecOutcome.malformed ∧
    start_listeners bindOk (spec :: rest) =
      { events := StartEvent.invalidSpec spec :: (start_listeners bindOk rest).events,
        aborted := (start_listeners bindOk rest).aborted,
        bound := (start_listeners bindOk rest).bound } := by
  have hout : listenerSpecOutcome spec = SpecOutcome.malformed := by
    simp only [listenerSpecOutcome, h1, h2]
  refine ⟨hout, ?_⟩
  rw [start_listeners, hout]

/-- Concrete instance of the amended C2 theorem: the dash-free malformed
spec `"abc"` is logged and skipped while the sibling `"8080"` still binds. -/
theorem C2_amended_dashfree_isolated_witness :
    parseU16Chars "abc".toList = none ∧
    splitOnceChars '-' "abc".toList = none ∧
    start_listeners (fun _ => true) ["abc", "8080"] =
      { events := StartEvent.invalidSpec "abc" ::
          (start_listeners (fun _ => true) ["8080"]).events,
        aborted := (start_listeners (fun _ => true) ["8080"]).aborted,
        bound := (start_listeners (fun _ => true) ["8080"]).bound } :=
  ⟨by decide, by decide,
   (C2_amended_dashfree_isolated "abc" ["8080"] (fun _ => true)
      (by decide) (by decide)).2⟩

/-- Claim C9 as stated is false on two counts.  First, the non-positive
timeout value `"0"` is not fatal: `parse::<u64>` accepts it and the
handler runs with a zero timeout.  Second, an invalid (non-numeric) value
does not abort before any listener binds: with ports `["8080"]` the
listener is bound (`Listening on port 8080` is logged) and startup is not
aborted — only the bound port's handler task, which evaluates the timeout
after the bind, dies of the `.expect` panic. -/
theorem C9_counterexample :
    get_connection_timeout (some "0") = some 0 ∧
    (start_listeners (fun _ => true) ["8080"]).events =
      [StartEvent.listening 8080] ∧
    (start_listeners (fun _ => true) ["8080"]).aborted = false ∧
    handlerStarts (some "abc") (start_listeners (fun _ => true) ["8080"]) =
      [(8080, none)] := by
  refine ⟨by decide, by decide, by decide, by decide⟩

/-- Claim C9 amended: the inactivity timeout defaults to 30 time units
when unspecified; a value that does not parse as an unsigned integer
panics — but in each bound listener's handler task, after that listener
has bound, killing the handler rather than aborting startup; and zero is
accepted as a valid (0-unit) timeout rather than being fatal. -/
theorem C9_amended_timeout (s : String) (bindOk : Nat → Bool) (ports : List String)
    (h : parseU64Chars s.toList = none) :
    get_connection_timeout none = some 30 ∧
    get_connection_timeout (some "0") = some 0 ∧
    (∀ pr ∈ handlerStarts (some s) (start_listeners bindOk ports), pr.2 = none) := by
  refine ⟨by decide, by decide, ?_⟩
  intro pr hpr
  rw [handlerStarts] at hpr
  obtain ⟨p, hp, hpeq⟩ := List.mem_map.mp hpr
  rw [← hpeq]
  show get_connection_timeout (some s) = none
  rw [get_connection_timeout]
  exact h

/-- Concrete instance of the amended C9 theorem: the non-numeric timeout
`"abc"` makes the handler of the bound port 8080 die at startup. -/
theorem C9_amended_timeout_witness :
    parseU64Chars "abc".toList = none ∧
    (∀ pr ∈ handlerStarts (some "abc") (start_listeners (fun _ => true) ["8080"]),
      pr.2 = none) :=
  ⟨by decide,
   (C9_amended_timeout "abc" (fun _ => true) ["8080"] (by decide)).2.2⟩

/-- Claim C10: when the peer address cannot be resolved, the connection
handler returns success immediately with no observable side effects — no
log directory created, no log file opened, nothing logged, nothing written
back to the socket, and no scan triggered even when the active flag is
set. -/
theorem C10_unresolved_peer_no_effects (active : Bool) (trace : List ReadStep) :
    process_connection none active trace =
      ({ dirCreated := false, fileOpened := false, log := [], echoed := [],
         scanStarted := false }, EchoOutcome.ok) := rfl

/-- Claim C1: on a connection whose echo loop never hits an I/O error, the
bytes echoed back equal the bytes sent, in order and undivided in total
count; every chunk of `N > 0` read bytes is logged raw (in order) and then
written back whole — `write_all` reporting success is a guarantee that all
`N` bytes went out, a short write being a definite error instead. -/
theorem C1_echo_equals_sent (p : Nat) (active : Bool) (trace : List ReadStep)
    (h : noIoError (echoLoop trace).2.2 = true) :
    (process_connection (some p) active trace).1.echoed = (chunksOf trace).flatten ∧
    receivedChunks (process_connection (some p) active trace).1.log = chunksOf trace ∧
    (∀ wenv n m, writeAll wenv n = Except.ok m → m = n) := by
  have main : ∀ tr, noIoError (echoLoop tr).2.2 = true →
      (echoLoop tr).2.1 = (chunksOf tr).flatten ∧
      receivedChunks (echoLoop tr).1 = chunksOf tr := by
    intro tr
    induction tr with
    | nil => intro _; exact ⟨rfl, rfl⟩
    | cons s rest ih =>
        intro hno
        cases s with
        | closed => exact ⟨rfl, rfl⟩
        | timedOut => exact ⟨rfl, rfl⟩
        | ioFail e => simp [echoLoop, noIoError] at hno
        | data bs wenv =>
            cases hw : writeAll wenv bs.length with
            | error e => simp [echoLoop, hw, noIoError] at hno
            | ok m =>
                have hm : m = bs.length := writeAll_ok_total _ _ _ hw
                have hno2 : noIoError (echoLoop rest).2.2 = true := by
                  simpa [echoLoop, hw] using hno
                obtain ⟨ihe, ihl⟩ := ih hno2
                constructor
                · simp [echoLoop, hw, chunksOf, hm, List.take_length, ihe]
                · simp [echoLoop, hw, chunksOf, receivedChunks] at ihl ⊢
                  exact ihl
  refine ⟨?_, ?_, fun wenv n m hw => writeAll_ok_total _ _ _ hw⟩
  · exact (main trace h).1
  · show receivedChunks (ConnLogEntry.connOpened p :: (echoLoop trace).1) = chunksOf trace
    simp only [receivedChunks, List.filterMap_cons]
    exact (main trace h).2

/-- Concrete instance of the C1 theorem: three bytes echoed across a
short-write retry inside `write_all` (2 bytes, then 1) on a connection the
peer then closes cleanly. -/
theorem C1_echo_equals_sent_witness :
    noIoError (echoLoop [ReadStep.data [1, 2, 3] [WriteRes.wrote 2, WriteRes.wrote 1],
      ReadStep.closed]).2.2 = true ∧
    (process_connection (some 7) true
      [ReadStep.data [1, 2, 3] [WriteRes.wrote 2, WriteRes.wrote 1],
       ReadStep.closed]).1.echoed = [1, 2, 3] :=
  ⟨by decide, by
    rw [(C1_echo_equals_sent 7 true
      [ReadStep.data [1, 2, 3] [WriteRes.wrote 2, WriteRes.wrote 1],
       ReadStep.closed] (by decide)).1]
    decide⟩

/-- Claim C4: given a resolved peer, the handler returns success exactly
when the echo loop's first terminal event is a clean close or an
inactivity timeout (each logged as its own event), and returns the I/O
error as a failure — with nothing after the terminal event processed, i.e.
no retry — exactly when that event is a failed read or a data read whose
echoing write failed. -/
theorem C4_terminal_outcomes (p : Nat) (active : Bool) (trace : List ReadStep)
    (pre : List ReadStep) (hpre : ∀ s ∈ pre, stepContinues s = true) :
    ((process_connection (some p) active trace).2 = EchoOutcome.ok ↔
      (firstStop trace = some ReadStep.closed ∨
       firstStop trace = some ReadStep.timedOut)) ∧
    (∀ e, (process_connection (some p) active trace).2 = EchoOutcome.ioError e ↔
      (firstStop trace = some (ReadStep.ioFail e) ∨
       ∃ bs wenv, firstStop trace = some (ReadStep.data bs wenv) ∧
         writeAll wenv bs.length = Except.error e)) ∧
    ((process_connection (some p) active (pre ++ [ReadStep.closed])).2 =
        EchoOutcome.ok ∧
      ((process_connection (some p) active (pre ++ [ReadStep.closed])).1.log).getLast? =
        some ConnLogEntry.connClosed) ∧
    ((process_connection (some p) active (pre ++ [ReadStep.timedOut])).2 =
        EchoOutcome.ok ∧
      ((process_connection (some p) active (pre ++ [ReadStep.timedOut])).1.log).getLast? =
        some ConnLogEntry.inactivityTimeout) ∧
    (∀ s more, stepContinues s = false →
      process_connection (some p) active (pre ++ s :: more) =
        process_connection (some p) active (pre ++ [s])) := by
  have houter : ∀ tr, (process_connection (some p) active tr).2 = (echoLoop tr).2.2 :=
    fun tr => rfl
  refine ⟨?_, ?_, ?_, ?_, ?_⟩
  · rw [houter]
    exact echoLoop_ok_iff trace
  · intro e
    rw [houter]
    exact echoLoop_error_iff trace e
  · constructor
    · rw [houter, echoLoop_append pre [ReadStep.closed] hpre]
      rfl
    · show (ConnLogEntry.connOpened p ::
        (echoLoop (pre ++ [ReadStep.closed])).1).getLast? = some ConnLogEntry.connClosed
      rw [echoLoop_append pre [ReadStep.closed] hpre]
      show (ConnLogEntry.connOpened p ::
        ((chunksOf pre).map ConnLogEntry.received ++ [ConnLogEntry.connClosed])).getLast? =
        some ConnLogEntry.connClosed
      rw [← List.cons_append, List.getLast?_concat]
  · constructor
    · rw [houter, echoLoop_append pre [ReadStep.timedOut] hpre]
      rfl
    · show (ConnLogEntry.connOpened p ::
        (echoLoop (pre ++ [ReadStep.timedOut])).1).getLast? = some ConnLogEntry.inactivityTimeout
      rw [echoLoop_append pre [ReadStep.timedOut] hpre]
      show (ConnLogEntry.connOpened p ::
        ((chunksOf pre).map ConnLogEntry.received ++ [ConnLogEntry.inactivityTimeout])).getLast? =
        some ConnLogEntry.inactivityTimeout
      rw [← List.cons_append, List.getLast?_concat]
  · intro s more hs
    have hl : echoLoop (pre ++ s :: more) = echoLoop (pre ++ [s]) := by
      rw [echoLoop_append pre (s :: more) hpre, echoLoop_append pre [s] hpre,
        echoLoop_head_stop s more hs]
    simp only [process_connection]
    rw [hl]

/-- Concrete instance of the C4 theorem: after one successfully echoed
chunk, a clean close yields success with the close event logged last. -/
theorem C4_terminal_outcomes_witness :
    (∀ s ∈ [ReadStep.data [7] [WriteRes.wrote 1]], stepContinues s = true) ∧
    (process_connection (some 1) false
      ([ReadStep.data [7] [WriteRes.wrote 1]] ++ [ReadStep.closed])).2 = EchoOutcome.ok :=
  ⟨by decide,
   (C4_terminal_outcomes 1 false [ReadStep.closed]
      [ReadStep.data [7] [WriteRes.wrote 1]] (by decide)).2.2.1.1⟩

end OTEWS
